import Mathlib

/-!
Verification development for the KDS_iptv live-stream playlist service
(single source file app.py).  The Python code is shallowly embedded:
Python strings are lists of characters, network input is an oracle
parameter, the thread-pool completion order of a non-primary group is an
oracle permutation, and every function of the source is translated into
an executable Lean definition.
-/

/-- A Python string, modelled as its list of unicode code points. -/
abbrev PyStr := List Char

/-- Python substring test (the infix operator in, e.g. needle in s). -/
def containsSub (pat : PyStr) : PyStr → Bool
  | [] => pat.isPrefixOf []
  | c :: cs => pat.isPrefixOf (c :: cs) || containsSub pat cs

/-- Characters matched by the regex class backslash-s in Python re
(unicode mode): ASCII whitespace plus the unicode whitespace points. -/
def isPySpace (c : Char) : Bool :=
  c = ' ' || c = '\t' || c = '\n' || c = '\r' || c = '\x0b' || c = '\x0c' ||
  c = '\x1c' || c = '\x1d' || c = '\x1e' || c = '\x1f' || c = '\x85' ||
  c = '\xa0' || c = '\u1680' ||
  ('\u2000' ≤ c && c ≤ '\u200a') ||
  c = '\u2028' || c = '\u2029' || c = '\u202f' || c = '\u205f' || c = '\u3000'

/-- The class in the two URL regexes written as not-space, not-quote,
not-apostrophe. -/
def isUrlChar (c : Char) : Bool :=
  !(isPySpace c || c = '"' || c = '\'')

/-- The class excluding double quote and ampersand (parameter values). -/
def isParamChar (c : Char) : Bool :=
  !(c = '"' || c = '&')

/-- The class excluding double quote and apostrophe (regex tail of the
fallback pattern). -/
def isTailChar (c : Char) : Bool :=
  !(c = '"' || c = '\'')

/-- Fuel-driven worker for pyReplace (fuel bounds the number of scanned
positions, so the recursion is structural and kernel-reducible). -/
def replaceAllF : Nat → PyStr → PyStr → PyStr → PyStr
  | 0, s, _, _ => s
  | _ + 1, [], _, _ => []
  | f + 1, c :: cs, pat, rep =>
    if pat ≠ [] && pat.isPrefixOf (c :: cs) then
      rep ++ replaceAllF f ((c :: cs).drop pat.length) pat rep
    else
      c :: replaceAllF f cs pat rep

/-- Python str.replace: replace every non-overlapping occurrence of pat,
scanning left to right (our patterns are never empty). -/
def pyReplace (s pat rep : PyStr) : PyStr :=
  replaceAllF s.length s pat rep

/-- The escape normalization done at the top of extract_url:
first backslash-slash becomes slash, then backslash-quote becomes quote. -/
def normalizeHtml (s : PyStr) : PyStr :=
  pyReplace (pyReplace s ("\\/".data) ("/".data)) ("\\\"".data) ("\"".data)

/-- The literal host part of the two direct URL regexes. -/
def hostLit : PyStr := "https://cdn.inteltelevision.com".data

/-- Match the suffix of pattern 1 after the candidate run of url
characters: literal t=, a nonempty run over isParamChar, literal
amp-token-equals, a nonempty run over isParamChar.  Returns the length
consumed.  Both runs are forced maximal: stopping earlier leaves a class
character where the following literal requires an ampersand or the end of
the pattern, so no backtracking inside them is possible. -/
def matchParamTail (s : PyStr) : Option Nat :=
  if ("t=".data).isPrefixOf s then
    let s1 := s.drop 2
    let b := (s1.takeWhile isParamChar).length
    if b = 0 then none else
      let s2 := s1.drop b
      if ("&token=".data).isPrefixOf s2 then
        let s3 := s2.drop 7
        let c := (s3.takeWhile isParamChar).length
        if c = 0 then none else some (2 + b + 7 + c)
      else none
  else none

/-- Backtracking over the greedy one-or-more url-character run of
pattern 1: try the run length a, a-1, ..., 1 (the regex engine tries the
longest run first). -/
def tryRun1 (rest : PyStr) : Nat → Option Nat
  | 0 => none
  | a + 1 =>
    match matchParamTail (rest.drop (a + 1)) with
    | some k => some (hostLit.length + (a + 1) + k)
    | none => tryRun1 rest a

/-- Attempt of regex pattern 1 anchored at the start of cs; returns the
length of the match. -/
def match1At (cs : PyStr) : Option Nat :=
  if hostLit.isPrefixOf cs then
    let rest := cs.drop hostLit.length
    tryRun1 rest ((rest.takeWhile isUrlChar).length)
  else none

/-- Backtracking over the url-character run of pattern 3: the engine
takes the longest run followed by the literal .m3u8, then a maximal
(possibly empty) run over isTailChar. -/
def tryRun3 (rest : PyStr) : Nat → Option Nat
  | 0 => none
  | a + 1 =>
    let after := rest.drop (a + 1)
    if (".m3u8".data).isPrefixOf after then
      some (hostLit.length + (a + 1) + 5 + ((after.drop 5).takeWhile isTailChar).length)
    else tryRun3 rest a

/-- Attempt of regex pattern 3 anchored at the start of cs. -/
def match3At (cs : PyStr) : Option Nat :=
  if hostLit.isPrefixOf cs then
    let rest := cs.drop hostLit.length
    tryRun3 rest ((rest.takeWhile isUrlChar).length)
  else none

/-- re.search for a pattern whose whole match is group 1: try an
anchored match at each start position from the left and return the
matched slice. -/
def searchSlice (m : PyStr → Option Nat) : PyStr → Option PyStr
  | [] => (m []).map (fun n => List.take n [])
  | c :: cs =>
    match m (c :: cs) with
    | some n => some ((c :: cs).take n)
    | none => searchSlice m cs

/-- Generic re.search driver for an anchored matcher with an arbitrary
result (used for the sourceData pattern). -/
def searchOpt (m : PyStr → Option PyStr) : PyStr → Option PyStr
  | [] => m []
  | c :: cs =>
    match m (c :: cs) with
    | some r => some r
    | none => searchOpt m cs

/-- The regex t=([^ampersand]+) applied by re.search: some position
carries the literal key immediately followed by at least one character
other than an ampersand. -/
def hasParamRun (key : PyStr) : PyStr → Bool
  | [] => false
  | c :: cs =>
    (key.isPrefixOf (c :: cs) &&
      (match (c :: cs).drop key.length with
       | d :: _ => d ≠ '&'
       | [] => false)) || hasParamRun key cs

/-- The validation performed on a candidate URL by every stage:
substring tests for t= and token= and the two capturing regexes. -/
def urlParamChecks (u : PyStr) : Bool :=
  containsSub ("t=".data) u && containsSub ("token=".data) u &&
  hasParamRun ("t=".data) u && hasParamRun ("token=".data) u

/-- Stage 1 of extract_url: the direct parameterized URL pattern,
followed by the in-function validation; on validation failure the code
falls through to the next stage. -/
def stage1Result (h : PyStr) : Option PyStr :=
  match searchSlice match1At h with
  | none => none
  | some url => if urlParamChecks url then some url else none

/-- Stage 3 of extract_url: the fallback .m3u8 pattern with the same
validation. -/
def stage3Result (h : PyStr) : Option PyStr :=
  match searchSlice match3At h with
  | none => none
  | some url => if urlParamChecks url then some url else none

/-- A Python value produced by json.loads, as far as this program can
observe it.  Numbers keep their raw lexeme: the code never uses a
numeric value, only the isinstance checks and key lookups. -/
inductive PyJson where
  | null : PyJson
  | bool : Bool → PyJson
  | num : PyStr → PyJson
  | str : PyStr → PyJson
  | arr : List PyJson → PyJson
  | obj : List (PyStr × PyJson) → PyJson

/-- Value of one hexadecimal digit, over raw code points (48-57 are the
decimal digits, 97-102 and 65-70 the two letter ranges). -/
def hexNibble (c : Char) : Option Nat :=
  let n := c.toNat
  if 48 ≤ n && n ≤ 57 then some (n - 48)
  else if 97 ≤ n && n ≤ 102 then some (n - 87)
  else if 65 ≤ n && n ≤ 70 then some (n - 55)
  else none

/-- The four hex digits of a backslash-u escape, most significant first. -/
def hexQuad (a b c d : Char) : Option Nat :=
  match hexNibble a, hexNibble b, hexNibble c, hexNibble d with
  | some va, some vb, some vc, some vd =>
    some (va * 4096 + (vb * 256 + (vc * 16 + vd)))
  | _, _, _, _ => none

/-- JSON string body after the opening quote, per the strict json.loads
scanner: closing quote ends it, backslash escapes, unescaped control
characters are rejected.  A backslash-u high surrogate must be followed
by a low one and the pair is combined; a lone surrogate is rejected here
(Python would build a lone-surrogate code unit, which a Lean Char cannot
represent, and no theorem below touches such an input). -/
def parseJsonStr : PyStr → Option (PyStr × PyStr)
  | [] => none
  | '"' :: r => some ([], r)
  | '\\' :: es =>
    match es with
    | 'u' :: a :: b :: c :: d :: r =>
      match hexQuad a b c d with
      | none => none
      | some n =>
        if 55296 ≤ n && n < 56320 then
          match r with
          | '\\' :: 'u' :: a2 :: b2 :: c2 :: d2 :: r2 =>
            match hexQuad a2 b2 c2 d2 with
            | none => none
            | some m =>
              if 56320 ≤ m && m < 57344 then
                match parseJsonStr r2 with
                | none => none
                | some (t, rest) =>
                  some (Char.ofNat (65536 + 1024 * (n - 55296) + (m - 56320)) :: t, rest)
              else none
          | _ => none
        else if 56320 ≤ n && n < 57344 then none
        else
          match parseJsonStr r with
          | none => none
          | some (t, rest) => some (Char.ofNat n :: t, rest)
    | e :: r =>
      match (match e with
             | '"' => some '"'
             | '\\' => some '\\'
             | '/' => some '/'
             | 'b' => some '\x08'
             | 'f' => some '\x0c'
             | 'n' => some '\n'
             | 'r' => some '\r'
             | 't' => some '\t'
             | _ => none) with
      | none => none
      | some ch =>
        match parseJsonStr r with
        | none => none
        | some (t, rest) => some (ch :: t, rest)
    | [] => none
  | c :: cs =>
    if c.toNat < 0x20 then none
    else
      match parseJsonStr cs with
      | none => none
      | some (t, rest) => some (c :: t, rest)

/-- JSON inter-token whitespace (json.loads accepts exactly these). -/
def isJsonWs (c : Char) : Bool :=
  c = ' ' || c = '\t' || c = '\n' || c = '\r'

/-- Skip inter-token whitespace. -/
def skipWs (s : PyStr) : PyStr := s.dropWhile isJsonWs

/-- Decimal digit. -/
def isDig (c : Char) : Bool := '0' ≤ c && c ≤ '9'

/-- JSON number lexeme per the RFC grammar, returning it raw. -/
def parseJsonNum (s : PyStr) : Option (PyJson × PyStr) :=
  let (sign, s1) :=
    match s with
    | '-' :: r => (['-'], r)
    | _ => (([] : PyStr), s)
  let intPart : Option (PyStr × PyStr) :=
    match s1 with
    | '0' :: r => some (['0'], r)
    | c :: _ =>
      if isDig c then some (s1.takeWhile isDig, s1.dropWhile isDig) else none
    | [] => none
  match intPart with
  | none => none
  | some (ip, s2) =>
    let (fp, s3) :=
      match s2 with
      | '.' :: r =>
        if (r.takeWhile isDig).length = 0 then (none, s2)
        else (some ('.' :: r.takeWhile isDig), r.dropWhile isDig)
      | _ => (none, s2)
    match fp, s3 with
    | none, '.' :: _ => none
    | _, _ =>
      let (ep, s4) : Option PyStr × PyStr :=
        match s3 with
        | e :: r =>
          if e = 'e' || e = 'E' then
            let (sg, r1) :=
              match r with
              | '+' :: r2 => (['+'], r2)
              | '-' :: r2 => (['-'], r2)
              | _ => (([] : PyStr), r)
            if (r1.takeWhile isDig).length = 0 then (none, s3)
            else (some (e :: sg ++ r1.takeWhile isDig), r1.dropWhile isDig)
          else (none, s3)
        | [] => (none, s3)
      match ep, s4 with
      | none, e :: _ =>
        if e = 'e' || e = 'E' then none
        else some (.num (sign ++ ip ++ fp.getD [] ++ []), s4)
      | _, _ => some (.num (sign ++ ip ++ fp.getD [] ++ ep.getD []), s4)

/-- Mode of the single fuel-indexed JSON parsing function: a value, or
the elements of an array / members of an object already opened. -/
inductive PMode where
  | val : PMode
  | arrTail : List PyJson → PMode
  | objTail : List (PyStr × PyJson) → PMode

/-- The json.loads recursive-descent parser (strict mode), driven by
fuel so that the recursion is structural; the fuel is sized from the
input length, which bounds the number of parsing steps. -/
def parseP : Nat → PMode → PyStr → Option (PyJson × PyStr)
  | 0, _, _ => none
  | f + 1, .val, s =>
    match s with
    | '"' :: cs =>
      match parseJsonStr cs with
      | none => none
      | some (t, r) => some (.str t, r)
    | '{' :: cs =>
      let cs1 := skipWs cs
      match cs1 with
      | '}' :: r => some (.obj [], r)
      | _ => parseP f (.objTail []) cs1
    | '[' :: cs =>
      let cs1 := skipWs cs
      match cs1 with
      | ']' :: r => some (.arr [], r)
      | _ => parseP f (.arrTail []) cs1
    | _ =>
      if ("true".data).isPrefixOf s then some (.bool true, s.drop 4)
      else if ("false".data).isPrefixOf s then some (.bool false, s.drop 5)
      else if ("null".data).isPrefixOf s then some (.null, s.drop 4)
      else if ("NaN".data).isPrefixOf s then some (.num ("NaN".data), s.drop 3)
      else if ("Infinity".data).isPrefixOf s then some (.num ("Infinity".data), s.drop 8)
      else if ("-Infinity".data).isPrefixOf s then some (.num ("-Infinity".data), s.drop 9)
      else parseJsonNum s
  | f + 1, .arrTail acc, s =>
    match parseP f .val s with
    | none => none
    | some (v, r) =>
      match skipWs r with
      | ',' :: r2 => parseP f (.arrTail (acc ++ [v])) (skipWs r2)
      | ']' :: r2 => some (.arr (acc ++ [v]), r2)
      | _ => none
  | f + 1, .objTail acc, s =>
    match s with
    | '"' :: cs =>
      match parseJsonStr cs with
      | none => none
      | some (k, r) =>
        match skipWs r with
        | ':' :: r2 =>
          match parseP f .val (skipWs r2) with
          | none => none
          | some (v, r3) =>
            match skipWs r3 with
            | ',' :: r4 =>
              match skipWs r4 with
              | '"' :: _ => parseP f (.objTail (acc ++ [(k, v)])) (skipWs r4)
              | _ => none
            | '}' :: r4 => some (.obj (acc ++ [(k, v)]), r4)
            | _ => none
        | _ => none
    | _ => none

/-- json.loads: parse one value and require only whitespace after it
(anything else raises the Extra data error). -/
def jsonLoads (s : PyStr) : Option PyJson :=
  match parseP (s.length + 2) .val (skipWs s) with
  | none => none
  | some (v, r) => if (skipWs r).isEmpty then some v else none

/-- Python dict lookup for the dict built by json.loads: a duplicated
key keeps its last occurrence. -/
def pyDictGet (kvs : List (PyStr × PyJson)) (k : PyStr) : Option PyJson :=
  (kvs.reverse.find? (fun p => p.1 == k)).map (fun p => p.2)

/-- The Python expression needle in v for a json.loads value: substring
test on a str, element equality on a list, key membership on a dict;
a TypeError (the error outcome) on every other type. -/
def pyInUrl (needle : PyStr) : PyJson → Except Unit Bool
  | .str s => .ok (containsSub needle s)
  | .arr l =>
    .ok (l.any (fun v => match v with
                         | .str s => s == needle
                         | _ => false))
  | .obj kvs => .ok (kvs.any (fun p => p.1 == needle))
  | _ => .error ()

/-- The for-loop over the decoded sourceData list.  An item that is a
dict with a url key whose validation passes is returned; items failing
a test are skipped; a TypeError raised by the in test or by re.search on
a non-string aborts the whole try-block (error outcome). -/
def scanItems : List PyJson → Except Unit (Option PyStr)
  | [] => .ok none
  | item :: rest =>
    match item with
    | .obj kvs =>
      match pyDictGet kvs ("url".data) with
      | none => scanItems rest
      | some v =>
        match pyInUrl ("t=".data) v with
        | .error _ => .error ()
        | .ok false => scanItems rest
        | .ok true =>
          match pyInUrl ("token=".data) v with
          | .error _ => .error ()
          | .ok false => scanItems rest
          | .ok true =>
            match v with
            | .str u =>
              if hasParamRun ("t=".data) u && hasParamRun ("token=".data) u then
                .ok (some u)
              else scanItems rest
            | _ => .error ()
    | _ => scanItems rest

/-- The lazily matched sourceData pattern body: the characters strictly
between the opening bracket and the first closing-bracket-semicolon pair
(DOTALL, so every character qualifies). -/
def scanBracketSemi : PyStr → Option PyStr
  | ']' :: ';' :: _ => some []
  | c :: cs => (scanBracketSemi cs).map (fun t => c :: t)
  | [] => none

/-- Attempt of the sourceData regex anchored at the start of s,
returning capture group 1 (the bracketed literal). -/
def match2At (s : PyStr) : Option PyStr :=
  if ("var sourceData".data).isPrefixOf s then
    let r1 := (s.drop 14).dropWhile isPySpace
    match r1 with
    | '=' :: r2 =>
      let r3 := r2.dropWhile isPySpace
      match r3 with
      | '[' :: r4 => (scanBracketSemi r4).map (fun inner => '[' :: inner ++ [']'])
      | _ => none
    | _ => none
  else none

/-- Stage 2 of extract_url: locate the sourceData literal, undo the
nested escaping (quote first, then slash), json.loads it inside a
try-block, and scan the list; every exception is caught and the code
falls through to stage 3. -/
def stage2Result (h : PyStr) : Option PyStr :=
  match searchOpt match2At h with
  | none => none
  | some g1 =>
    let s2 := pyReplace (pyReplace g1 ("\\\"".data) ("\"".data)) ("\\/".data) ("/".data)
    match jsonLoads s2 with
    | none => none
    | some data =>
      match data with
      | .arr items =>
        if items.isEmpty then none
        else
          match scanItems items with
          | .error _ => none
          | .ok o => o
      | _ => none

/-- extract_url from app.py: the escape normalization (done once, up
front, in the source) followed by the three prioritized stages, each
falling through to the next on failure. -/
def extract_url (html : PyStr) : Option PyStr :=
  match stage1Result (normalizeHtml html) with
  | some u => some u
  | none =>
    match stage2Result (normalizeHtml html) with
    | some u => some u
    | none => stage3Result (normalizeHtml html)

/-- Configuration constants of app.py. -/
def MAX_CHANNELS : Nat := 20

/-- Maximum number of extra fetch attempts after the first. -/
def MAX_RETRIES : Nat := 2

/-- Base retry delay in seconds (0.3 in the source). -/
def RETRY_DELAY : ℚ := 3 / 10

/-- What one HTTP attempt can produce: a response with a status code and
a body, or a raised network-level exception (timeout, reset, decode
failure), abstracted by a numeric code. -/
inductive AttemptRes where
  | ok : Nat → PyStr → AttemptRes
  | exc : Nat → AttemptRes
deriving DecidableEq

/-- Exceptions surfaced by one attempt of request_with_retry. -/
inductive PyExc where
  | httpError : Nat → PyExc
  | netError : Nat → PyExc
deriving DecidableEq

/-- One attempt body: session.get followed by raise_for_status, which
raises exactly for status codes 400-599, then response.text. -/
def attemptToExcept : AttemptRes → Except PyExc PyStr
  | .ok s b => if 400 ≤ s && s < 600 then .error (.httpError s) else .ok b
  | .exc c => .error (.netError c)

/-- The retry loop of request_with_retry.  fuel counts the attempts
still allowed after the current one (so fuel 0 is the final attempt,
whose exception is raised to the caller).  The second component records
the sleeps performed: RETRY_DELAY * (retry + 1) after the failed attempt
of zero-based index retry. -/
def retryGo (attempts : Nat → AttemptRes) : Nat → Nat → Except PyExc PyStr × List ℚ
  | retry, 0 => (attemptToExcept (attempts retry), [])
  | retry, fuel + 1 =>
    match attemptToExcept (attempts retry) with
    | .ok b => (.ok b, [])
    | .error _ =>
      let p := retryGo attempts (retry + 1) fuel
      (p.1, RETRY_DELAY * ((retry : ℚ) + 1) :: p.2)

/-- request_with_retry from app.py, with the per-attempt outcome
supplied by the oracle attempts. -/
def request_with_retry (attempts : Nat → AttemptRes) : Except PyExc PyStr × List ℚ :=
  retryGo attempts 0 MAX_RETRIES

/-- A channel dict of the catalog; a missing key raises KeyError in the
source, hence the Option. -/
structure Channel where
  name : Option PyStr
  page : Option PyStr
deriving DecidableEq

/-- A group dict of the catalog.  group-title is read with .get (absent
gives None, printed as the string None); the channels key is read with
indexing, whose KeyError path is outside the catalog format and not
modelled. -/
structure PyGroup where
  title : Option PyStr
  channels : List Channel
deriving DecidableEq

/-- Base page URL for relative page references. -/
def base_url : PyStr := "https://www.kds.tw/tv/china-tv-channels-online/".data

/-- full_url construction in process_channel. -/
def build_full_url (page : PyStr) : PyStr :=
  if ("http".data).isPrefixOf page then page else base_url ++ page

/-- The placeholder used by channel.get with a default in the exception
handler. -/
def unknownName : PyStr := "Unknown".data

/-- process_channel from app.py.  The network is the oracle fetch,
mapping the full URL to the outcome of request_with_retry (a body, or
the exception it raised after exhausting its attempts).  Every failure
is converted to a pair with no URL; the except-branch reads the name
with channel.get, falling back to Unknown. -/
def process_channel (fetch : PyStr → Except Nat PyStr) (channel : Channel) :
    PyStr × Option PyStr :=
  match channel.name with
  | none => (unknownName, none)
  | some name =>
    match channel.page with
    | none => (name, none)
    | some page =>
      match fetch (build_full_url page) with
      | .error _ => (name, none)
      | .ok html =>
        match extract_url html with
        | none => (name, none)
        | some url =>
          if url.isEmpty then (name, none)
          else if containsSub ("cdn.inteltelevision.com".data) url &&
                  containsSub ("t=".data) url && containsSub ("token=".data) url then
            (name, some url)
          else (name, none)

/-- The distinguished primary group title. -/
def primary_title : PyStr := "央视频道".data

/-- The group header line chunk, with Python f-string rendering of a
missing title as the text None. -/
def headerChunk (g : PyGroup) : PyStr :=
  (match g.title with
   | some t => t
   | none => "None".data) ++ (",#genre#\n".data)

/-- One channel entry chunk from a process_channel outcome. -/
def entryChunk : PyStr × Option PyStr → PyStr
  | (name, some url) => name ++ (",".data) ++ url ++ ("\n".data)
  | (name, none) => name ++ (",#ERROR#\n".data)

/-- The per-group truncation slice channels[:MAX_CHANNELS]. -/
def retainedChannels (g : PyGroup) : List Channel :=
  g.channels.take MAX_CHANNELS

/-- How the playlist stream can terminate abnormally. -/
inductive SpiderErr where
  | catalogLoad : Nat → SpiderErr
  | executorValue : SpiderErr
deriving DecidableEq

/-- The single newline chunk yielded as a separator. -/
def nlChunk : PyStr := "\n".data

/-- The group loop of stream_spider.  proc resolves one channel
(process_channel); ord i is the thread-pool completion order of the
group at index i, as positions into its truncated channel list.  The
result is the list of yielded chunks together with the exception, if
any, that ends the generator: constructing ThreadPoolExecutor with
max_workers = min 5 0 = 0 for an empty non-primary group raises
ValueError after the header has been yielded. -/
def streamGroups (proc : Channel → PyStr × Option PyStr) (ord : Nat → List Nat) :
    Nat → List PyGroup → List PyStr × Option SpiderErr
  | _, [] => ([], none)
  | i, g :: rest =>
    let sep : List PyStr := if 0 < i then [nlChunk, nlChunk] else []
    let channels := retainedChannels g
    if g.title = some primary_title then
      let entries := channels.map (fun c => entryChunk (proc c))
      let p := streamGroups proc ord (i + 1) rest
      (sep ++ headerChunk g :: entries ++ p.1, p.2)
    else
      if channels.isEmpty then
        (sep ++ [headerChunk g], some .executorValue)
      else
        let entries := (ord i).filterMap
          (fun j => (channels.get? j).map (fun c => entryChunk (proc c)))
        let p := streamGroups proc ord (i + 1) rest
        (sep ++ headerChunk g :: entries ++ p.1, p.2)

/-- stream_spider from app.py: the generator body first loads the
catalog (load is the outcome of read_channels_json, whose failure raises
before anything is yielded), then walks the groups. -/
def stream_spider (fetch : PyStr → Except Nat PyStr) (ord : Nat → List Nat)
    (load : Except Nat (List PyGroup)) : List PyStr × Option SpiderErr :=
  match load with
  | .error e => ([], some (.catalogLoad e))
  | .ok data => streamGroups (process_channel fetch) ord 0 data

/-- Python line.rstrip with a newline argument: drop every trailing
newline character. -/
def rstripNl (s : PyStr) : PyStr :=
  (s.reverse.dropWhile (fun c => c = '\n')).reverse

/-- The newline join performed by run_spider. -/
def joinNl : List PyStr → PyStr
  | [] => []
  | [x] => x
  | x :: y :: rest => x ++ '\n' :: joinNl (y :: rest)

/-- run_spider from app.py: drain the generator, strip each chunk,
join with single newlines; an exception from the generator propagates. -/
def run_spider (fetch : PyStr → Except Nat PyStr) (ord : Nat → List Nat)
    (load : Except Nat (List PyGroup)) : Except SpiderErr PyStr :=
  match stream_spider fetch ord load with
  | (chunks, none) => .ok (joinNl (chunks.map rstripNl))
  | (_, some e) => .error e

/-- The observable part of the Flask response of the live.txt route. -/
structure HttpResponse where
  status : Nat
  bodyChunks : List PyStr
  bodyError : Option SpiderErr
deriving DecidableEq

/-- get_live_file from app.py.  The try-block only builds the Response
around the freshly created generator; creating a generator runs none of
its body, so nothing in the try-block can raise and the except-branch
returning status 500 is dead code for a catalog-load failure, which
instead surfaces while the 200 response body is being streamed. -/
def get_live_file (fetch : PyStr → Except Nat PyStr) (ord : Nat → List Nat)
    (load : Except Nat (List PyGroup)) : HttpResponse :=
  let p := stream_spider fetch ord load
  { status := 200, bodyChunks := p.1, bodyError := p.2 }

/-- The per-group chunk block used to state the emitter theorems: the
header followed by one entry chunk per retained channel, sequential and
in order for the primary group, in completion order for the others. -/
def groupBlock (proc : Channel → PyStr × Option PyStr) (ord : Nat → List Nat)
    (i : Nat) (g : PyGroup) : List PyStr :=
  if g.title = some primary_title then
    headerChunk g :: (retainedChannels g).map (fun c => entryChunk (proc c))
  else
    headerChunk g :: (ord i).filterMap
      (fun j => ((retainedChannels g).get? j).map (fun c => entryChunk (proc c)))

/-- The blocks of every group of the catalog, indexed from i. -/
def groupBlocks (proc : Channel → PyStr × Option PyStr) (ord : Nat → List Nat) :
    Nat → List PyGroup → List (List PyStr)
  | _, [] => []
  | i, g :: rest => groupBlock proc ord i g :: groupBlocks proc ord (i + 1) rest

/-- Joining blocks with the two newline chunks the loop yields between
consecutive groups. -/
def joinBlocks : List (List PyStr) → List PyStr
  | [] => []
  | [b] => b
  | b :: b2 :: rest => b ++ nlChunk :: nlChunk :: joinBlocks (b2 :: rest)

/-- Split a character list at newlines (the line structure of the
emitted text; a text ending in a newline yields a final empty piece). -/
def splitNl : PyStr → List PyStr
  | [] => [[]]
  | '\n' :: cs => [] :: splitNl cs
  | c :: cs =>
    match splitNl cs with
    | [] => [[c]]
    | l :: ls => (c :: l) :: ls

/-- A page whose body is one direct parameterized CDN URL. -/
def demoHtml : PyStr :=
  "https://cdn.inteltelevision.com/live/s1.m3u8?t=1700000000&token=abcdef".data

/-- The URL extract_url finds in demoHtml. -/
def demoUrl : PyStr :=
  "https://cdn.inteltelevision.com/live/s1.m3u8?t=1700000000&token=abcdef".data

/-- A network oracle on which every fetch succeeds with demoHtml. -/
def okFetch : PyStr → Except Nat PyStr := fun _ => .ok demoHtml

/-- A network oracle on which every fetch raises. -/
def errFetch : PyStr → Except Nat PyStr := fun _ => .error 0

/-- A completion order for three-channel groups (submission order). -/
def demoOrd : Nat → List Nat := fun _ => [0, 1, 2]

/-- A degenerate completion-order oracle. -/
def emptyOrd : Nat → List Nat := fun _ => []

/-- The two-group, three-channels-each catalog of the spec example. -/
def catTwoGroups : List PyGroup :=
  [⟨some ("央视频道".data),
    [⟨some ("CCTV-1".data), some ("p1".data)⟩,
     ⟨some ("CCTV-2".data), some ("p2".data)⟩,
     ⟨some ("CCTV-3".data), some ("p3".data)⟩]⟩,
   ⟨some ("卫视频道".data),
    [⟨some ("TV-A".data), some ("q1".data)⟩,
     ⟨some ("TV-B".data), some ("q2".data)⟩,
     ⟨some ("TV-C".data), some ("q3".data)⟩]⟩]

/-- A non-primary group with an empty channel list. -/
def gEmptySat : PyGroup := ⟨some ("卫视频道".data), []⟩

/-- A well-formed group that follows the empty one. -/
def gOther : PyGroup := ⟨some ("Other".data), [⟨some ("X".data), some ("p".data)⟩]⟩

/-- A catalog whose first group makes the executor construction raise. -/
def catBad : List PyGroup := [gEmptySat, gOther]

/-- A non-primary empty group with a distinct title, for the abort
instantiation. -/
def gEmptyLocal : PyGroup := ⟨some ("地方频道".data), []⟩

/-- The spec example input for the embedded-data stage. -/
def c7Input : PyStr :=
  "var sourceData = [\x7b\"url\":\"https://cdn.inteltelevision.com/x.m3u8?t=AAA&token=BBB\"\x7d];".data

/-- The URL the spec example must produce. -/
def c7Url : PyStr :=
  "https://cdn.inteltelevision.com/x.m3u8?t=AAA&token=BBB".data

/-- HTML with no extraction pattern at all. -/
def plainHtml : PyStr := "<p>hello</p>".data

/-- A sourceData literal whose url field uses the JSON escape u0026 for
the ampersand, so the decoded URL is absent from the page text. -/
def c3Input : PyStr :=
  "var sourceData = [\x7b\"url\":\"https://cdn.inteltelevision.com/x.m3u8?t=A\\u0026token=B\"\x7d];".data

/-- The URL json.loads reconstructs from c3Input. -/
def c3Url : PyStr :=
  "https://cdn.inteltelevision.com/x.m3u8?t=A&token=B".data

/-- A sourceData literal whose url points at a foreign host. -/
def c9Html : PyStr :=
  "var sourceData = [\x7b\"url\":\"https://other.example.com/x.m3u8?t=AAA&token=BBB\"\x7d];".data

/-- The foreign-host URL extract_url returns from c9Html. -/
def c9Url : PyStr :=
  "https://other.example.com/x.m3u8?t=AAA&token=BBB".data

/-- A channel whose page serves c9Html. -/
def c9Chan : Channel := ⟨some ("A".data), some ("http://x".data)⟩

/-- The oracle serving c9Html everywhere. -/
def c9Fetch : PyStr → Except Nat PyStr := fun _ => .ok c9Html

/-- A simple named channel for the failure-absorption instances. -/
def chanA : Channel := ⟨some ("A".data), some ("p".data)⟩

theorem isPrefixOf_take (l : List Char) : ∀ n, ((l.take n).isPrefixOf l) = true := by
  induction l with
  | nil => intro n; cases n <;> rfl
  | cons c cs ih =>
    intro n
    cases n with
    | zero => rfl
    | succ m =>
      show (((c :: cs).take (m + 1)).isPrefixOf (c :: cs)) = true
      simp only [List.take_succ_cons, List.isPrefixOf]
      simp [ih m]

theorem containsSub_of_isPrefixOf {p l : PyStr} (h : p.isPrefixOf l = true) :
    containsSub p l = true := by
  cases l with
  | nil => simpa [containsSub] using h
  | cons c cs => simp [containsSub, h]

theorem containsSub_cons {p cs : PyStr} (c : Char) (h : containsSub p cs = true) :
    containsSub p (c :: cs) = true := by
  simp [containsSub, h]

theorem searchSlice_containsSub {m : PyStr → Option Nat} :
    ∀ {l r : PyStr}, searchSlice m l = some r → containsSub r l = true := by
  intro l
  induction l with
  | nil =>
    intro r h
    simp only [searchSlice] at h
    cases hm : m [] with
    | none => rw [hm] at h; cases h
    | some n =>
      rw [hm] at h
      simp only [Option.map_some'] at h
      cases h
      simp [containsSub, List.isPrefixOf]
  | cons c cs ih =>
    intro r h
    simp only [searchSlice] at h
    cases hm : m (c :: cs) with
    | some n =>
      rw [hm] at h
      cases h
      exact containsSub_of_isPrefixOf (isPrefixOf_take (c :: cs) n)
    | none =>
      rw [hm] at h
      exact containsSub_cons c (ih h)

theorem stage1Result_containsSub {h u : PyStr} (e : stage1Result h = some u) :
    containsSub u h = true := by
  unfold stage1Result at e
  cases hs : searchSlice match1At h with
  | none => rw [hs] at e; cases e
  | some url =>
    rw [hs] at e
    by_cases hc : urlParamChecks url = true
    · simp [hc] at e; cases e; exact searchSlice_containsSub hs
    · simp [hc] at e

theorem stage3Result_containsSub {h u : PyStr} (e : stage3Result h = some u) :
    containsSub u h = true := by
  unfold stage3Result at e
  cases hs : searchSlice match3At h with
  | none => rw [hs] at e; cases e
  | some url =>
    rw [hs] at e
    by_cases hc : urlParamChecks url = true
    · simp [hc] at e; cases e; exact searchSlice_containsSub hs
    · simp [hc] at e


theorem streamGroups_cons (proc : Channel → PyStr × Option PyStr) (ord : Nat → List Nat)
    (i : Nat) (g : PyGroup) (rest : List PyGroup) :
    streamGroups proc ord i (g :: rest) =
      (if g.title = some primary_title then
        ((if 0 < i then [nlChunk, nlChunk] else []) ++
          headerChunk g :: ((retainedChannels g).map fun c => entryChunk (proc c)) ++
            (streamGroups proc ord (i + 1) rest).1,
         (streamGroups proc ord (i + 1) rest).2)
      else if (retainedChannels g).isEmpty then
        ((if 0 < i then [nlChunk, nlChunk] else []) ++ [headerChunk g], some .executorValue)
      else
        ((if 0 < i then [nlChunk, nlChunk] else []) ++
          headerChunk g :: (((ord i).filterMap fun j =>
              ((retainedChannels g).get? j).map fun c => entryChunk (proc c)) ++
            (streamGroups proc ord (i + 1) rest).1),
         (streamGroups proc ord (i + 1) rest).2)) := by
  by_cases hp : g.title = some primary_title
  · simp only [streamGroups, hp, if_pos]
  · by_cases he : (retainedChannels g).isEmpty
    · simp [streamGroups, hp, he]
    · simp [streamGroups, hp, he]

theorem streamGroups_eq_joinBlocks (proc : Channel → PyStr × Option PyStr)
    (ord : Nat → List Nat) :
    ∀ (cat : List PyGroup) (i : Nat),
      (∀ g ∈ cat, g.title = some primary_title ∨ (retainedChannels g).isEmpty = false) →
      streamGroups proc ord i cat =
        ((if cat.isEmpty then [] else if 0 < i then [nlChunk, nlChunk] else []) ++
          joinBlocks (groupBlocks proc ord i cat), none) := by
  intro cat
  induction cat with
  | nil =>
    intro i _
    simp [streamGroups, groupBlocks, joinBlocks]
  | cons g rest ih =>
    intro i h
    have hg := h g (List.mem_cons_self g rest)
    have hrest : ∀ g' ∈ rest,
        g'.title = some primary_title ∨ (retainedChannels g').isEmpty = false :=
      fun g' hm => h g' (List.mem_cons_of_mem g hm)
    have ihr := ih (i + 1) hrest
    rw [streamGroups_cons, ihr]
    by_cases hp : g.title = some primary_title
    · cases rest with
      | nil => simp [groupBlocks, joinBlocks, groupBlock, hp]
      | cons r rs => simp [groupBlocks, joinBlocks, groupBlock, hp]
    · have hgn : (retainedChannels g).isEmpty = false := by
        rcases hg with hgp | hgn
        · exact absurd hgp hp
        · exact hgn
      cases rest with
      | nil => simp [groupBlocks, joinBlocks, groupBlock, hp, hgn]
      | cons r rs => simp [groupBlocks, joinBlocks, groupBlock, hp, hgn]

theorem streamGroups_abort (proc : Channel → PyStr × Option PyStr) (ord : Nat → List Nat)
    (g : PyGroup) (rest : List PyGroup)
    (hp : g.title ≠ some primary_title) (he : (retainedChannels g).isEmpty = true) :
    ∀ (gs : List PyGroup) (i : Nat),
      (∀ g' ∈ gs, g'.title = some primary_title ∨ (retainedChannels g').isEmpty = false) →
      streamGroups proc ord i (gs ++ g :: rest) =
        ((if 0 < i then [nlChunk, nlChunk] else []) ++
          joinBlocks (groupBlocks proc ord i gs ++ [[headerChunk g]]),
         some .executorValue) := by
  intro gs
  induction gs with
  | nil =>
    intro i _
    rw [List.nil_append, streamGroups_cons]
    simp [hp, he, groupBlocks, joinBlocks]
  | cons g' gs' ih =>
    intro i h
    have hg' := h g' (List.mem_cons_self g' gs')
    have hrest : ∀ x ∈ gs',
        x.title = some primary_title ∨ (retainedChannels x).isEmpty = false :=
      fun x hm => h x (List.mem_cons_of_mem g' hm)
    have ihr := ih (i + 1) hrest
    rw [List.cons_append, streamGroups_cons, ihr]
    by_cases hp' : g'.title = some primary_title
    · cases gs' with
      | nil => simp [groupBlocks, joinBlocks, groupBlock, hp']
      | cons r rs => simp [groupBlocks, joinBlocks, groupBlock, hp']
    · have hgn : (retainedChannels g').isEmpty = false := by
        rcases hg' with hgp | hgn
        · exact absurd hgp hp'
        · exact hgn
      cases gs' with
      | nil => simp [groupBlocks, joinBlocks, groupBlock, hp', hgn]
      | cons r rs => simp [groupBlocks, joinBlocks, groupBlock, hp', hgn]

theorem filterMap_get_eq_map {α : Type} (l : List Channel) (f : Channel → α) :
    ∀ (p : List Nat), (∀ j ∈ p, j < l.length) →
      p.filterMap (fun j => (l.get? j).map f) =
        p.map (fun j => f (l.getD j ⟨none, none⟩)) := by
  intro p
  induction p with
  | nil => intro _; rfl
  | cons j js ih =>
    intro hb
    have hj : j < l.length := hb j (List.mem_cons_self j js)
    have hget : l.get? j = some (l.getD j ⟨none, none⟩) := by
      rw [List.getD_eq_getElem?_getD, List.get?_eq_getElem?]
      rw [List.getElem?_eq_getElem hj]
      rfl
    simp only [List.filterMap_cons, List.map_cons, hget, Option.map_some']
    rw [ih (fun x hx => hb x (List.mem_cons_of_mem j hx))]

theorem map_getD_range {α : Type} (f : Channel → α) :
    ∀ (l : List Channel),
      (List.range l.length).map (fun j => f (l.getD j ⟨none, none⟩)) = l.map f := by
  intro l
  induction l with
  | nil => rfl
  | cons a l ih =>
    have : (a :: l).length = l.length + 1 := rfl
    rw [this, List.range_succ_eq_map]
    simp only [List.map_cons, List.map_map]
    congr 1

theorem perm_filterMap_entries {α : Type} (l : List Channel) (f : Channel → α)
    (p : List Nat) (hp : List.Perm p (List.range l.length)) :
    List.Perm (p.filterMap (fun j => (l.get? j).map f)) (l.map f) := by
  have hb : ∀ j ∈ p, j < l.length := by
    intro j hj
    have := hp.mem_iff.mp hj
    exact List.mem_range.mp this
  rw [filterMap_get_eq_map l f p hb]
  have h1 : List.Perm (p.map (fun j => f (l.getD j ⟨none, none⟩)))
      ((List.range l.length).map (fun j => f (l.getD j ⟨none, none⟩))) :=
    hp.map _
  rw [map_getD_range f l] at h1
  exact h1

theorem rstripNl_eq_self {x : PyStr} (h : x.reverse.head? ≠ some '\n') :
    rstripNl x = x := by
  unfold rstripNl
  cases hx : x.reverse with
  | nil =>
    have : x = [] := by
      have := congrArg List.reverse hx
      simpa using this
    simp [this]
  | cons c t =>
    have hcne : c ≠ '\n' := by
      intro hc
      exact h (by rw [hx, hc]; rfl)
    rw [List.dropWhile_cons]
    simp only [decide_eq_true_eq, hcne, if_false]
    rw [← hx, List.reverse_reverse]

theorem rstripNl_append_nl (x : PyStr) : rstripNl (x ++ ['\n']) = rstripNl x := by
  unfold rstripNl
  rw [List.reverse_append]
  simp [List.dropWhile_cons]

theorem rstripNl_snoc_nl {x : PyStr} (h : x.reverse.head? ≠ some '\n') :
    rstripNl (x ++ ['\n']) ++ ['\n'] = x ++ ['\n'] := by
  rw [rstripNl_append_nl, rstripNl_eq_self h]

theorem reverse_head_append_ne {pre suf : PyStr} (c : Char) (hc : c ≠ '\n')
    (h : ∀ d ∈ suf, d ≠ '\n') : ((pre ++ c :: suf).reverse.head? ≠ some '\n') := by
  rw [List.reverse_append, List.reverse_cons]
  cases hs : suf.reverse with
  | nil =>
    simp only [hs, List.nil_append, List.cons_append, List.head?_cons]
    intro hcontra
    exact hc (by injection hcontra)
  | cons d t =>
    have hd : d ∈ suf := by
      have : d ∈ suf.reverse := by rw [hs]; exact List.mem_cons_self d t
      exact List.mem_reverse.mp this
    simp only [hs, List.cons_append, List.append_assoc, List.head?_cons]
    intro hcontra
    exact h d hd (by injection hcontra)

theorem chunkOk_entry (p : PyStr × Option PyStr)
    (hu : ∀ u, p.2 = some u → ∀ d ∈ u, d ≠ '\n') :
    rstripNl (entryChunk p) ++ ['\n'] = entryChunk p := by
  obtain ⟨n, o⟩ := p
  cases o with
  | none =>
    show rstripNl (n ++ (",#ERROR#\n".data)) ++ ['\n'] = n ++ (",#ERROR#\n".data)
    have hsplit : n ++ (",#ERROR#\n".data) = (n ++ (",#ERROR#".data)) ++ ['\n'] := by
      simp [List.append_assoc]
    rw [hsplit]
    refine rstripNl_snoc_nl ?_
    have : n ++ (",#ERROR#".data) = n ++ ',' :: ("#ERROR#".data) := rfl
    rw [this]
    exact reverse_head_append_ne ',' (by decide) (by decide)
  | some u =>
    show rstripNl (n ++ (",".data) ++ u ++ ("\n".data)) ++ ['\n']
        = n ++ (",".data) ++ u ++ ("\n".data)
    have hu' : ∀ d ∈ u, d ≠ '\n' := hu u rfl
    have hsplit : n ++ (",".data) ++ u ++ ("\n".data) = (n ++ ',' :: u) ++ ['\n'] := by
      simp [List.append_assoc]
    rw [hsplit]
    exact rstripNl_snoc_nl (reverse_head_append_ne ',' (by decide) hu')

theorem chunkOk_header (g : PyGroup) :
    rstripNl (headerChunk g) ++ ['\n'] = headerChunk g := by
  unfold headerChunk
  have hsplit : (match g.title with
      | some t => t
      | none => "None".data) ++ (",#genre#\n".data)
      = ((match g.title with
          | some t => t
          | none => "None".data) ++ ',' :: ("#genre#".data)) ++ ['\n'] := by
    simp [List.append_assoc]
  rw [hsplit]
  exact rstripNl_snoc_nl (reverse_head_append_ne ',' (by decide) (by decide))

theorem chunkOk_nl : rstripNl nlChunk ++ ['\n'] = nlChunk := by decide

theorem joinNl_strip_flatten :
    ∀ (chunks : List PyStr), chunks ≠ [] →
      (∀ ch ∈ chunks, rstripNl ch ++ ['\n'] = ch) →
      joinNl (chunks.map rstripNl) ++ ['\n'] = chunks.flatten := by
  intro chunks
  induction chunks with
  | nil => intro h _; exact absurd rfl h
  | cons ch rest ih =>
    intro _ hok
    have hch := hok ch (List.mem_cons_self ch rest)
    cases rest with
    | nil =>
      simp only [List.map_cons, List.map_nil, joinNl, List.flatten]
      simpa using hch
    | cons ch2 rest2 =>
      have hrest : ∀ x ∈ ch2 :: rest2, rstripNl x ++ ['\n'] = x :=
        fun x hx => hok x (List.mem_cons_of_mem ch hx)
      have ihr := ih (by simp) hrest
      show (rstripNl ch ++ '\n' :: joinNl ((ch2 :: rest2).map rstripNl)) ++ ['\n']
          = ch ++ (ch2 :: rest2).flatten
      have step1 : (rstripNl ch ++ '\n' :: joinNl ((ch2 :: rest2).map rstripNl)) ++ ['\n']
          = rstripNl ch ++ '\n' :: (joinNl ((ch2 :: rest2).map rstripNl) ++ ['\n']) := by
        simp [List.append_assoc]
      have step2 : rstripNl ch ++ '\n' :: (ch2 :: rest2).flatten
          = (rstripNl ch ++ ['\n']) ++ (ch2 :: rest2).flatten := by
        simp [List.append_assoc]
      rw [step1, ihr, step2, hch]

theorem streamGroups_chunks_ok (fetch : PyStr → Except Nat PyStr) (ord : Nat → List Nat) :
    ∀ (cat : List PyGroup) (i : Nat),
      (∀ g ∈ cat, ∀ c ∈ retainedChannels g,
          '\n' ∉ ((process_channel fetch c).2.getD [])) →
      ∀ ch ∈ (streamGroups (process_channel fetch) ord i cat).1,
        rstripNl ch ++ ['\n'] = ch := by
  intro cat
  induction cat with
  | nil =>
    intro i _ ch hch
    simp [streamGroups] at hch
  | cons g rest ih =>
    intro i hu ch hch
    have hug : ∀ c ∈ retainedChannels g,
        '\n' ∉ ((process_channel fetch c).2.getD []) :=
      fun c hc => hu g (List.mem_cons_self g rest) c hc
    have hurest : ∀ g' ∈ rest, ∀ c ∈ retainedChannels g',
        '\n' ∉ ((process_channel fetch c).2.getD []) :=
      fun g' hg' c hc => hu g' (List.mem_cons_of_mem g hg') c hc
    have hentry : ∀ c ∈ retainedChannels g,
        rstripNl (entryChunk (process_channel fetch c)) ++ ['\n']
          = entryChunk (process_channel fetch c) := by
      intro c hc
      refine chunkOk_entry _ ?_
      intro u hup d hd hdc
      have : '\n' ∈ ((process_channel fetch c).2.getD []) := by
        rw [hup]
        simpa [hdc] using hd
      exact hug c hc this
    have hsep : ∀ ch' ∈ (if 0 < i then [nlChunk, nlChunk] else []),
        rstripNl ch' ++ ['\n'] = ch' := by
      intro ch' hch'
      by_cases hi : 0 < i
      · rw [if_pos hi] at hch'
        have h' : ch' = nlChunk := by simpa [or_self] using hch'
        rw [h']; exact chunkOk_nl
      · rw [if_neg hi] at hch'
        cases hch'
    rw [streamGroups_cons] at hch
    by_cases hp : g.title = some primary_title
    · rw [if_pos hp] at hch
      simp only [List.mem_append, List.mem_cons, List.mem_singleton,
        List.not_mem_nil, or_false] at hch
      rcases hch with (hs | hh | hm) | ht
      · exact hsep ch hs
      · rw [hh]; exact chunkOk_header g
      · rcases List.mem_map.mp hm with ⟨c, hc, hceq⟩
        rw [← hceq]; exact hentry c hc
      · exact ih (i + 1) hurest ch ht
    · rw [if_neg hp] at hch
      by_cases hemp : (retainedChannels g).isEmpty
      · rw [if_pos hemp] at hch
        simp only [List.mem_append, List.mem_cons, List.mem_singleton,
          List.not_mem_nil, or_false] at hch
        rcases hch with hs | hh
        · exact hsep ch hs
        · rw [hh]; exact chunkOk_header g
      · rw [if_neg hemp] at hch
        simp only [List.mem_append, List.mem_cons, List.mem_singleton,
          List.not_mem_nil, or_false] at hch
        rcases hch with hs | hh | hm | ht
        · exact hsep ch hs
        · rw [hh]; exact chunkOk_header g
        · rcases List.mem_filterMap.mp hm with ⟨j, _, hj⟩
          rcases Option.map_eq_some'.mp hj with ⟨c, hcg, hceq⟩
          have hc : c ∈ retainedChannels g := List.get?_mem hcg
          rw [← hceq]; exact hentry c hc
        · exact ih (i + 1) hurest ch ht

theorem process_channel_name (fetch : PyStr → Except Nat PyStr) (c : Channel) :
    (process_channel fetch c).1 = c.name.getD unknownName := by
  unfold process_channel
  split
  next hn => simp [hn]
  next name hn =>
    split
    next hp => simp [hn]
    next page hp =>
      split
      next e hf => simp [hn]
      next html hf =>
        split
        next he => simp [hn]
        next url he =>
          split
          next => simp [hn]
          next =>
            split
            next => simp [hn]
            next => simp [hn]

/-- C1, corrected part: on the 2-group, 3-channels-each catalog with every
fetch succeeding, the emitted playlist text holds two blank lines between
the two groups, not one: the loop yields two newline chunks after entry
lines that already end in a newline. -/
theorem C1_counterexample :
    (splitNl ((stream_spider okFetch demoOrd (.ok catTwoGroups)).1.flatten)).dropLast.count []
      = 2 ∧ ¬ ((2 : Nat) = 1) := by
  constructor
  · decide
  · decide

/-- C1 (amended): for every catalog whose non-primary groups are nonempty
after truncation, the chunk stream is exactly the per-group blocks joined
by a two-newline-chunk separator and no exception; on the concrete
2-group, 3-channels-each catalog with all fetches succeeding the lines are
2 headers, 6 entries, exactly 2 blank separator lines between the groups,
and no trailing separator after the last group. -/
theorem C1_theorem :
    (∀ (fetch : PyStr → Except Nat PyStr) (ord : Nat → List Nat) (cat : List PyGroup),
      (∀ g ∈ cat, g.title = some primary_title ∨ (retainedChannels g).isEmpty = false) →
      stream_spider fetch ord (.ok cat)
        = (joinBlocks (groupBlocks (process_channel fetch) ord 0 cat), none)) ∧
    splitNl ((stream_spider okFetch demoOrd (.ok catTwoGroups)).1.flatten) =
      [("央视频道,#genre#".data), ("CCTV-1,".data ++ demoUrl), ("CCTV-2,".data ++ demoUrl),
       ("CCTV-3,".data ++ demoUrl), [], [],
       ("卫视频道,#genre#".data), ("TV-A,".data ++ demoUrl), ("TV-B,".data ++ demoUrl),
       ("TV-C,".data ++ demoUrl), []] ∧
    (splitNl ((stream_spider okFetch demoOrd (.ok catTwoGroups)).1.flatten)).dropLast.count []
      = 2 ∧
    (splitNl ((stream_spider okFetch demoOrd (.ok catTwoGroups)).1.flatten)).dropLast.getLast?
      = some ("TV-C,".data ++ demoUrl) := by
  refine ⟨?_, by decide, by decide, by decide⟩
  intro fetch ord cat h
  show streamGroups (process_channel fetch) ord 0 cat = _
  rw [streamGroups_eq_joinBlocks (process_channel fetch) ord cat 0 h]
  cases cat with
  | nil => simp
  | cons g rest => simp

theorem C1_witness :
    stream_spider okFetch demoOrd (.ok catTwoGroups)
      = (joinBlocks (groupBlocks (process_channel okFetch) demoOrd 0 catTwoGroups), none) :=
  C1_theorem.1 okFetch demoOrd catTwoGroups (by decide)

/-- C2: the route handler does not return a 500 on catalog-load failure.
stream_spider() only creates a generator, so read_channels_json runs at
the first body iteration, outside the try-block: the handler always
returns a 200 streaming response whose body raises immediately, which is
exactly what the claim says must not happen. -/
theorem C2_theorem :
    ∀ (fetch : PyStr → Except Nat PyStr) (ord : Nat → List Nat) (e : Nat),
      get_live_file fetch ord (.error e)
        = { status := 200, bodyChunks := [], bodyError := some (.catalogLoad e) } ∧
      (get_live_file fetch ord (.error e)).status ≠ 500 := by
  intro fetch ord e
  refine ⟨rfl, ?_⟩
  intro hcon
  exact (by decide : (200 : Nat) ≠ 500) hcon

theorem C2_witness :
    get_live_file errFetch emptyOrd (.error 7)
      = { status := 200, bodyChunks := [], bodyError := some (.catalogLoad 7) } :=
  (C2_theorem errFetch emptyOrd 7).1

/-- C3, corrected part: on a sourceData literal whose url field escapes
the ampersand as a JSON u0026 escape, extract_url returns the decoded
URL, which is not a substring of the escape-normalized input, refuting
the literal-substring half of the claim. -/
theorem C3_counterexample :
    extract_url c3Input = some c3Url ∧
    containsSub c3Url (normalizeHtml c3Input) = false := by
  constructor
  · decide
  · decide

/-- C3 (amended): extract_url is pure and deterministic, and a returned
URL is a literal contiguous substring of the normalized input whenever it
comes from the direct pattern or the fallback pattern; a URL from the
embedded sourceData literal is the json-decoded url field, which can
differ from every substring when the JSON string uses escapes beyond the
slash and quote ones the normalization undoes. -/
theorem C3_theorem :
    (∀ h : PyStr, extract_url h = extract_url h) ∧
    (∀ (h u : PyStr), extract_url h = some u →
      containsSub u (normalizeHtml h) = true ∨
      (stage1Result (normalizeHtml h) = none ∧
        stage2Result (normalizeHtml h) = some u)) := by
  constructor
  · intro h
    rfl
  · intro h u he
    unfold extract_url at he
    cases h1 : stage1Result (normalizeHtml h) with
    | some u1 =>
      rw [h1] at he
      simp only [Option.some.injEq] at he
      subst he
      exact Or.inl (stage1Result_containsSub h1)
    | none =>
      rw [h1] at he
      cases h2 : stage2Result (normalizeHtml h) with
      | some u2 =>
        rw [h2] at he
        simp only [Option.some.injEq] at he
        subst he
        exact Or.inr ⟨rfl, rfl⟩
      | none =>
        rw [h2] at he
        exact Or.inl (stage3Result_containsSub he)

theorem C3_witness :
    containsSub c7Url (normalizeHtml c7Input) = true ∨
    (stage1Result (normalizeHtml c7Input) = none ∧
      stage2Result (normalizeHtml c7Input) = some c7Url) :=
  C3_theorem.2 c7Input c7Url (by decide)

/-- C4, corrected part: a catalog whose first group is non-primary and
empty aborts the stream right after that header, so the second group
never receives its header line, refuting the unrestricted claim. -/
theorem C4_counterexample :
    stream_spider errFetch emptyOrd (.ok catBad)
      = (["卫视频道,#genre#\n".data], some .executorValue) ∧
    headerChunk gOther ∉ ["卫视频道,#genre#\n".data] := by
  constructor
  · decide
  · decide

/-- C4 (amended): for every catalog all of whose non-primary groups are
nonempty after truncation, and any completion orders that permute each
non-primary group's retained indices, the stream is the per-group blocks
in catalog order with no exception; each block is one header followed by
exactly one entry per retained channel; primary-group entries keep
catalog order, other groups' entries are a permutation of the per-channel
entries; every entry carries the channel's declared name (Unknown only
when absent). -/
theorem C4_theorem :
    ∀ (fetch : PyStr → Except Nat PyStr) (ord : Nat → List Nat) (cat : List PyGroup),
      (∀ g ∈ cat, g.title = some primary_title ∨ (retainedChannels g).isEmpty = false) →
      (∀ i g, cat.get? i = some g → g.title ≠ some primary_title →
        List.Perm (ord i) (List.range (retainedChannels g).length)) →
      stream_spider fetch ord (.ok cat)
        = (joinBlocks (groupBlocks (process_channel fetch) ord 0 cat), none) ∧
      (∀ i g, cat.get? i = some g →
        ∃ entries,
          groupBlock (process_channel fetch) ord i g = headerChunk g :: entries ∧
          entries.length = (retainedChannels g).length ∧
          (g.title = some primary_title →
            entries = (retainedChannels g).map (fun c => entryChunk (process_channel fetch c))) ∧
          (g.title ≠ some primary_title →
            List.Perm entries
              ((retainedChannels g).map (fun c => entryChunk (process_channel fetch c)))) ∧
          (∀ c ∈ retainedChannels g,
            (process_channel fetch c).1 = c.name.getD unknownName)) := by
  intro fetch ord cat h1 h2
  constructor
  · show streamGroups (process_channel fetch) ord 0 cat = _
    rw [streamGroups_eq_joinBlocks (process_channel fetch) ord cat 0 h1]
    cases cat with
    | nil => simp
    | cons g rest => simp
  · intro i g hg
    by_cases hp : g.title = some primary_title
    · refine ⟨(retainedChannels g).map (fun c => entryChunk (process_channel fetch c)),
        ?_, ?_, ?_, ?_, ?_⟩
      · unfold groupBlock
        rw [if_pos hp]
      · simp
      · intro _; rfl
      · intro hcon; exact absurd hp hcon
      · intro c _; exact process_channel_name fetch c
    · have hperm := h2 i g hg hp
      refine ⟨(ord i).filterMap
          (fun j => ((retainedChannels g).get? j).map
            (fun c => entryChunk (process_channel fetch c))), ?_, ?_, ?_, ?_, ?_⟩
      · unfold groupBlock
        rw [if_neg hp]
      · have hpf := perm_filterMap_entries (retainedChannels g)
          (fun c => entryChunk (process_channel fetch c)) (ord i) hperm
        have := hpf.length_eq
        simpa using this
      · intro hcon; exact absurd hcon hp
      · intro _
        exact perm_filterMap_entries (retainedChannels g)
          (fun c => entryChunk (process_channel fetch c)) (ord i) hperm
      · intro c _; exact process_channel_name fetch c

theorem C4_witness :
    stream_spider okFetch demoOrd (.ok catTwoGroups)
      = (joinBlocks (groupBlocks (process_channel okFetch) demoOrd 0 catTwoGroups), none) ∧
    (∀ c ∈ retainedChannels (⟨some ("卫视频道".data),
        [⟨some ("TV-A".data), some ("q1".data)⟩,
         ⟨some ("TV-B".data), some ("q2".data)⟩,
         ⟨some ("TV-C".data), some ("q3".data)⟩]⟩ : PyGroup),
      (process_channel okFetch c).1 = c.name.getD unknownName) := by
  have h := C4_theorem okFetch demoOrd catTwoGroups (by decide)
    (by
      intro i g hg hnp
      match i, hg with
      | 0, hg =>
        exfalso
        apply hnp
        have : g = catTwoGroups.get ⟨0, by decide⟩ := by
          injection hg with h0
          exact h0.symm
        rw [this]
        decide
      | 1, hg =>
        have : g = catTwoGroups.get ⟨1, by decide⟩ := by
          injection hg with h0
          exact h0.symm
        rw [this]
        decide)
  refine ⟨h.1, ?_⟩
  have h2 := h.2 1 (⟨some ("卫视频道".data),
      [⟨some ("TV-A".data), some ("q1".data)⟩,
       ⟨some ("TV-B".data), some ("q2".data)⟩,
       ⟨some ("TV-C".data), some ("q3".data)⟩]⟩ : PyGroup) (by decide)
  rcases h2 with ⟨entries, _, _, _, _, hnames⟩
  exact hnames

/-- C5: every per-channel failure (missing keys, fetch error after the
retries, extraction or validation failure) is absorbed inside
process_channel, which reports the declared name (Unknown only when the
name key is absent) with no URL; such an outcome is emitted as the
literal error-marker line; and no per-channel failure ever aborts the
stream, whose only abnormal end is the empty-non-primary-group executor
error. -/
theorem C5_theorem :
    ∀ (fetch : PyStr → Except Nat PyStr) (c : Channel),
      ((process_channel fetch c).1 = c.name.getD unknownName) ∧
      (c.name = none → process_channel fetch c = (unknownName, none)) ∧
      (∀ n p e, c.name = some n → c.page = some p →
        fetch (build_full_url p) = .error e → process_channel fetch c = (n, none)) ∧
      (∀ n p html, c.name = some n → c.page = some p →
        fetch (build_full_url p) = .ok html → extract_url html = none →
        process_channel fetch c = (n, none)) ∧
      (∀ n : PyStr, entryChunk (n, none) = n ++ (",#ERROR#\n".data)) ∧
      (∀ (ord : Nat → List Nat) (cat : List PyGroup),
        (∀ g ∈ cat, g.title = some primary_title ∨ (retainedChannels g).isEmpty = false) →
        (stream_spider fetch ord (.ok cat)).2 = none) := by
  intro fetch c
  refine ⟨process_channel_name fetch c, ?_, ?_, ?_, ?_, ?_⟩
  · intro hn
    unfold process_channel
    rw [hn]
  · intro n p e hn hp hf
    unfold process_channel
    split
    next hn2 => rw [hn2] at hn; exact Option.noConfusion hn
    next name hn2 =>
      rw [hn2] at hn
      injection hn with hneq
      subst hneq
      split
      next hp2 => rfl
      next page hp2 =>
        rw [hp2] at hp
        injection hp with hpeq
        subst hpeq
        split
        next e2 hf2 => rfl
        next html hf2 =>
          rw [hf] at hf2
          exact Except.noConfusion hf2
  · intro n p html hn hp hf he
    unfold process_channel
    split
    next hn2 => rw [hn2] at hn; exact Option.noConfusion hn
    next name hn2 =>
      rw [hn2] at hn
      injection hn with hneq
      subst hneq
      split
      next hp2 => rfl
      next page hp2 =>
        rw [hp2] at hp
        injection hp with hpeq
        subst hpeq
        split
        next e2 hf2 => rfl
        next html2 hf2 =>
          rw [hf] at hf2
          injection hf2 with hheq
          subst hheq
          split
          next he2 => rfl
          next url he2 => rw [he] at he2; exact Option.noConfusion he2
  · intro n; rfl
  · intro ord cat hok
    show (streamGroups (process_channel fetch) ord 0 cat).2 = none
    rw [streamGroups_eq_joinBlocks (process_channel fetch) ord cat 0 hok]

theorem C5_witness :
    process_channel errFetch chanA = ("A".data, none) ∧
    entryChunk (("A".data : PyStr), none) = ("A".data) ++ (",#ERROR#\n".data) ∧
    (stream_spider errFetch demoOrd (.ok catTwoGroups)).2 = none := by
  refine ⟨?_, ?_, ?_⟩
  · exact (C5_theorem errFetch chanA).2.2.1 ("A".data) ("p".data) 0 rfl rfl rfl
  · exact (C5_theorem errFetch chanA).2.2.2.2.1 ("A".data)
  · exact (C5_theorem errFetch chanA).2.2.2.2.2 demoOrd catTwoGroups (by decide)

/-- C6, corrected part: a final 304 response is a non-2xx status, yet
raise_for_status does not raise for it, so no retry happens: the call
returns the body at once with no sleeps performed. -/
theorem C6_counterexample :
    request_with_retry (fun _ => .ok 304 ("x".data)) = (.ok ("x".data), []) ∧
    ¬ (200 ≤ 304 ∧ 304 < 300) := by
  constructor
  · rfl
  · decide

/-- C6 (amended): at most MAX_RETRIES extra attempts happen after the
first; a failed attempt of zero-based index k that is not the last is
followed by a sleep of RETRY_DELAY * (k + 1), so the delay grows
linearly; a 4xx or 5xx status (the raise_for_status range) and a network
error both trigger a retry; and when all attempts fail the exception of
the final attempt is the one raised to the caller. -/
theorem C6_theorem :
    (∀ attempts : Nat → AttemptRes,
      (request_with_retry attempts).2.length ≤ MAX_RETRIES) ∧
    (∀ (attempts : Nat → AttemptRes) (e0 e1 e2 : PyExc),
      attemptToExcept (attempts 0) = .error e0 →
      attemptToExcept (attempts 1) = .error e1 →
      attemptToExcept (attempts 2) = .error e2 →
      request_with_retry attempts
        = (.error e2, [RETRY_DELAY * 1, RETRY_DELAY * 2])) ∧
    (∀ (attempts : Nat → AttemptRes) (s : Nat) (b : PyStr),
      attempts 0 = .ok s b → 400 ≤ s → s < 600 →
      (request_with_retry attempts).2.head? = some (RETRY_DELAY * 1)) ∧
    (∀ (attempts : Nat → AttemptRes) (ce : Nat),
      attempts 0 = .exc ce →
      (request_with_retry attempts).2.head? = some (RETRY_DELAY * 1)) := by
  refine ⟨?_, ?_, ?_, ?_⟩
  · intro attempts
    show (retryGo attempts 0 2).2.length ≤ 2
    simp only [retryGo]
    cases attemptToExcept (attempts 0) with
    | ok b => simp
    | error e =>
      simp only []
      cases attemptToExcept (attempts 1) with
      | ok b => simp
      | error e1 =>
        simp only []
        cases attemptToExcept (attempts 2) with
        | ok b => simp
        | error e2 => simp
  · intro attempts e0 e1 e2 h0 h1 h2
    show retryGo attempts 0 2 = _
    simp only [retryGo, h0, h1, h2]
    norm_num
  · intro attempts s b h0 h4 h6
    have he : attemptToExcept (attempts 0) = .error (.httpError s) := by
      rw [h0]
      unfold attemptToExcept
      simp [h4, h6]
    show (retryGo attempts 0 2).2.head? = _
    simp only [retryGo, he]
    norm_num
  · intro attempts ce h0
    have he : attemptToExcept (attempts 0) = .error (.netError ce) := by
      rw [h0]; rfl
    show (retryGo attempts 0 2).2.head? = _
    simp only [retryGo, he]
    norm_num

theorem C6_witness :
    request_with_retry (fun k => .exc k)
      = (.error (.netError 2), [RETRY_DELAY * 1, RETRY_DELAY * 2]) ∧
    (request_with_retry (fun _ => .ok 503 ("x".data))).2.head?
      = some (RETRY_DELAY * 1) := by
  constructor
  · exact C6_theorem.2.1 (fun k => .exc k) (.netError 0) (.netError 1) (.netError 2)
      rfl rfl rfl
  · exact C6_theorem.2.2.1 (fun _ => .ok 503 ("x".data)) 503 ("x".data)
      rfl (by decide) (by decide)

/-- C7: on the exact sourceData example of the spec the extractor
returns exactly the embedded URL (the direct pattern already matches it
inside the JSON text); and whenever none of the three stages produces a
URL the function returns the no-URL outcome instead of raising (it is a
total function into Option). -/
theorem C7_theorem :
    extract_url c7Input = some c7Url ∧
    (∀ h : PyStr,
      stage1Result (normalizeHtml h) = none →
      stage2Result (normalizeHtml h) = none →
      stage3Result (normalizeHtml h) = none →
      extract_url h = none) := by
  constructor
  · decide
  · intro h h1 h2 h3
    unfold extract_url
    rw [h1, h2, h3]

theorem C7_witness :
    extract_url plainHtml = none :=
  C7_theorem.2 plainHtml (by decide) (by decide) (by decide)

/-- C8: a non-primary group with an empty channel list makes
stream_spider construct ThreadPoolExecutor with max_workers = min 5 0
= 0, which raises ValueError: the stream ends abnormally right after
that group's header, and the groups after it contribute nothing. -/
theorem C8_theorem :
    ∀ (fetch : PyStr → Except Nat PyStr) (ord : Nat → List Nat)
      (gs : List PyGroup) (g : PyGroup) (rest : List PyGroup),
      (∀ g' ∈ gs, g'.title = some primary_title ∨ (retainedChannels g').isEmpty = false) →
      g.title ≠ some primary_title → g.channels = [] →
      stream_spider fetch ord (.ok (gs ++ g :: rest))
        = (joinBlocks (groupBlocks (process_channel fetch) ord 0 gs ++ [[headerChunk g]]),
           some .executorValue) := by
  intro fetch ord gs g rest h hp hc
  have he : (retainedChannels g).isEmpty = true := by
    simp [retainedChannels, hc]
  show streamGroups (process_channel fetch) ord 0 (gs ++ g :: rest) = _
  rw [streamGroups_abort (process_channel fetch) ord g rest hp he gs 0 h]
  simp

theorem C8_witness :
    stream_spider errFetch emptyOrd (.ok ([] ++ gEmptyLocal :: [gOther]))
      = (joinBlocks (groupBlocks (process_channel errFetch) emptyOrd 0 []
          ++ [[headerChunk gEmptyLocal]]),
         some .executorValue) :=
  C8_theorem errFetch emptyOrd [] gEmptyLocal [gOther]
    (fun g' hg' => absurd hg' (List.not_mem_nil g')) (by decide) rfl

/-- C9: process_channel reports a URL only when it contains the CDN host
and the t= and token= substrings; an extracted URL failing this check
(notably one taken from the sourceData literal, which extract_url does
not host-check) is discarded at the worker boundary and the channel is
reported with no URL, hence emitted with the error marker. -/
theorem C9_theorem :
    (∀ (fetch : PyStr → Except Nat PyStr) (c : Channel) (n u : PyStr),
      process_channel fetch c = (n, some u) →
      containsSub ("cdn.inteltelevision.com".data) u = true ∧
      containsSub ("t=".data) u = true ∧
      containsSub ("token=".data) u = true) ∧
    (∀ (fetch : PyStr → Except Nat PyStr) (c : Channel) (n p html u : PyStr),
      c.name = some n → c.page = some p →
      fetch (build_full_url p) = .ok html →
      extract_url html = some u →
      (containsSub ("cdn.inteltelevision.com".data) u &&
        containsSub ("t=".data) u && containsSub ("token=".data) u) = false →
      process_channel fetch c = (n, none)) := by
  constructor
  · intro fetch c n u hpc
    unfold process_channel at hpc
    split at hpc
    next => exact Option.noConfusion (congrArg Prod.snd hpc)
    next name hn2 =>
      split at hpc
      next => exact Option.noConfusion (congrArg Prod.snd hpc)
      next page hp2 =>
        split at hpc
        next => exact Option.noConfusion (congrArg Prod.snd hpc)
        next html hf2 =>
          split at hpc
          next => exact Option.noConfusion (congrArg Prod.snd hpc)
          next url he2 =>
            split at hpc
            next => exact Option.noConfusion (congrArg Prod.snd hpc)
            next hUrlNe =>
              split at hpc
              next hcond =>
                have hu : url = u := by
                  have := congrArg Prod.snd hpc
                  simpa using this
                subst hu
                simp only [Bool.and_eq_true] at hcond
                obtain ⟨⟨hc1, hc2⟩, hc3⟩ := hcond
                exact ⟨hc1, hc2, hc3⟩
              next => exact Option.noConfusion (congrArg Prod.snd hpc)
  · intro fetch c n p html u hn hp hf he hfalse
    unfold process_channel
    split
    next hn2 => rw [hn2] at hn; exact Option.noConfusion hn
    next name hn2 =>
      rw [hn2] at hn
      injection hn with hneq
      subst hneq
      split
      next hp2 => rfl
      next page hp2 =>
        rw [hp2] at hp
        injection hp with hpeq
        subst hpeq
        split
        next e2 hf2 => rfl
        next html2 hf2 =>
          rw [hf] at hf2
          injection hf2 with hheq
          subst hheq
          split
          next he2 => rfl
          next url he2 =>
            rw [he] at he2
            injection he2 with hueq
            subst hueq
            split
            next => rfl
            next =>
              split
              next hcond =>
                rw [show (containsSub ("cdn.inteltelevision.com".data) u &&
                    containsSub ("t=".data) u && containsSub ("token=".data) u)
                    = false from hfalse] at hcond
                exact Bool.noConfusion hcond
              next => rfl

theorem C9_witness :
    process_channel c9Fetch c9Chan = ("A".data, none) :=
  C9_theorem.2 c9Fetch c9Chan ("A".data) ("http://x".data) c9Html c9Url
    rfl rfl rfl (by decide) (by decide)

/-- C10: on any catalog whose channel names and resolved URLs contain no
newline, the buffered and the streaming mode agree: when the stream ends
normally, run_spider returns the chunks with trailing newlines stripped
and re-joined by single newlines, and that result followed by one
newline is exactly the concatenation of the streamed chunks; when the
stream raises, run_spider raises the same exception. -/
theorem C10_theorem :
    ∀ (fetch : PyStr → Except Nat PyStr) (ord : Nat → List Nat) (cat : List PyGroup),
      (∀ g ∈ cat, ∀ c ∈ retainedChannels g, '\n' ∉ c.name.getD unknownName) →
      (∀ g ∈ cat, ∀ c ∈ retainedChannels g,
        '\n' ∉ ((process_channel fetch c).2.getD [])) →
      ((stream_spider fetch ord (.ok cat)).2 = none →
        run_spider fetch ord (.ok cat)
          = .ok (joinNl (((stream_spider fetch ord (.ok cat)).1).map rstripNl)) ∧
        ((stream_spider fetch ord (.ok cat)).1 = [] ∨
          joinNl (((stream_spider fetch ord (.ok cat)).1).map rstripNl) ++ ['\n']
            = ((stream_spider fetch ord (.ok cat)).1).flatten)) ∧
      (∀ e, (stream_spider fetch ord (.ok cat)).2 = some e →
        run_spider fetch ord (.ok cat) = .error e) := by
  intro fetch ord cat _ hu
  have hok : ∀ ch ∈ (stream_spider fetch ord (.ok cat)).1,
      rstripNl ch ++ ['\n'] = ch :=
    streamGroups_chunks_ok fetch ord cat 0 hu
  constructor
  · intro hnone
    constructor
    · unfold run_spider
      rcases hstream : stream_spider fetch ord (.ok cat) with ⟨chunks, err⟩
      rw [hstream] at hnone
      simp only at hnone
      subst hnone
      rfl
    · rcases hchunks : (stream_spider fetch ord (.ok cat)).1 with _ | ⟨ch, rest⟩
      · exact Or.inl rfl
      · refine Or.inr ?_
        rw [← hchunks]
        refine joinNl_strip_flatten _ ?_ hok
        rw [hchunks]
        simp
  · intro e he
    unfold run_spider
    rcases hstream : stream_spider fetch ord (.ok cat) with ⟨chunks, err⟩
    rw [hstream] at he
    simp only at he
    subst he
    rfl

theorem C10_witness :
    run_spider okFetch demoOrd (.ok catTwoGroups)
      = .ok (joinNl (((stream_spider okFetch demoOrd (.ok catTwoGroups)).1).map rstripNl)) ∧
    ((stream_spider okFetch demoOrd (.ok catTwoGroups)).1 = [] ∨
      joinNl (((stream_spider okFetch demoOrd (.ok catTwoGroups)).1).map rstripNl) ++ ['\n']
        = ((stream_spider okFetch demoOrd (.ok catTwoGroups)).1).flatten) :=
  (C10_theorem okFetch demoOrd catTwoGroups (by decide) (by decide)).1 (by decide)
